import Mathlib

/-
Verification of the satin laser-amplifier simulation (satin.py).

The Python program computes, for a matrix of operating points, the output
power of a saturated-gain Gaussian beam by nested numerical integration
(radial samples × longitudinal steps) against a precomputed longitudinal
correction table, then assembles per-laser reports.

Shallow embedding conventions:
  * IEEE-754 doubles are modelled as real numbers (ℝ); the claims under
    study are about the algorithmic structure, which the real-number
    model preserves.  Every value of type ℝ is finite, so "finite" claims
    about computed reals carry no extra content in this model.
  * Python `int(x)` on a positive float is truncation, i.e. `Int.toNat ⌊x⌋`.
    (Over the reals 0.5 / 0.002 = 250 exactly, matching the IEEE value.)
  * Python loops accumulating state are `List.foldl`.
  * Python exceptions are modelled with `Except`: `math.log x` raises
    ValueError for x ≤ 0, and float division by zero raises
    ZeroDivisionError; the orchestrator's try/except over thread results
    is modelled as a fold that records caught exception kinds and
    propagates uncaught ones.
-/

noncomputable section

/-- Module constant PI = math.pi. -/
def PI : ℝ := Real.pi

/-- Module constant RAD = 0.18. -/
def RAD : ℝ := 0.18

/-- Module constant RAD2 = RAD ** 2. -/
def RAD2 : ℝ := RAD ^ 2

/-- Module constant W1 = 0.3. -/
def W1 : ℝ := 0.3

/-- Module constant DR = 0.002 (radial step). -/
def DR : ℝ := 0.002

/-- Module constant DZ = 0.04 (longitudinal step). -/
def DZ : ℝ := 0.04

/-- Module constant LAMBDA = 0.0106. -/
def LAMBDA : ℝ := 0.0106

/-- Module constant AREA = PI * RAD2. -/
def AREA : ℝ := PI * RAD2

/-- Module constant Z1 = PI * W1 ** 2 / LAMBDA. -/
def Z1 : ℝ := PI * W1 ^ 2 / LAMBDA

/-- Module constant Z12 = Z1 ** 2. -/
def Z12 : ℝ := Z1 ^ 2

/-- Module constant EXPR = 2 * PI * DR. -/
def EXPR : ℝ := 2 * PI * DR

/-- Module constant INCR = 8001 (number of longitudinal steps). -/
def INCR : ℕ := 8001

/-- Element i of the EXPR1 comprehension:
`2 * ((i - INCR // 2) / 25) * DZ / (Z12 + ((i - INCR // 2) / 25) ** 2)`.
Python `//` on naturals is `Nat.div`, so `INCR / 2 = 4000` here. -/
def expr1Entry (i : ℕ) : ℝ :=
  2 * (((i : ℝ) - ((INCR / 2 : ℕ) : ℝ)) / 25) * DZ /
    (Z12 + (((i : ℝ) - ((INCR / 2 : ℕ) : ℝ)) / 25) ^ 2)

/-- The longitudinal correction table
`EXPR1 = [2 * ((i - INCR // 2) / 25) * DZ / (Z12 + ((i - INCR // 2) / 25) ** 2) for i in range(INCR)]`. -/
def EXPR1 : List ℝ := (List.range INCR).map expr1Entry

/-- One iteration of the inner loop of `_calculate_output_power`:
`output_intensity *= (1 + expr2 / (saturation_intensity + output_intensity) - EXPR1[j])`. -/
def longitudinalUpdate (saturation_intensity expr2 oi : ℝ) (j : ℕ) : ℝ :=
  oi * (1 + expr2 / (saturation_intensity + oi) - expr1Entry j)

/-- The inner loop of `_calculate_output_power` run for the first `n` steps
(`for j in range(n): output_intensity *= ...`), starting from intensity `init`. -/
def propagateSteps (saturation_intensity expr2 init : ℝ) (n : ℕ) : ℝ :=
  (List.range n).foldl (fun oi j => longitudinalUpdate saturation_intensity expr2 oi j) init

/-- `_calculate_output_power(input_power, small_signal_gain, saturation_intensity)`:

    input_intensity = 2 * input_power / AREA
    expr2 = saturation_intensity * small_signal_gain / 32000 * DZ
    r_values = [i * DR for i in range(int(0.5 / DR))]
    exp_values = [input_intensity * math.exp(-2 * r ** 2 / RAD2) for r in r_values]
    total = 0.0
    for r, initial_intensity in zip(r_values, exp_values):
        output_intensity = initial_intensity
        for j in range(INCR):
            output_intensity *= (1 + expr2 / (saturation_intensity + output_intensity) - EXPR1[j])
        total += output_intensity * EXPR * r
    return total
-/
def _calculate_output_power (input_power small_signal_gain saturation_intensity : ℝ) : ℝ :=
  let input_intensity := 2 * input_power / AREA
  let expr2 := saturation_intensity * small_signal_gain / 32000 * DZ
  let r_values := (List.range (Int.toNat ⌊(0.5 : ℝ) / DR⌋)).map (fun (i : ℕ) => (i : ℝ) * DR)
  let exp_values := r_values.map (fun r => input_intensity * Real.exp (-2 * r ^ 2 / RAD2))
  (r_values.zip exp_values).foldl
    (fun total ri =>
      total + propagateSteps saturation_intensity expr2 ri.2 INCR * EXPR * ri.1)
    0

/-- Reference algorithm written from the words of spec §4.2 (for claim C1):
radius is discretized as r_i = i·DR for i = 0 .. int(0.5/DR)-1; for each r_i
the intensity is seeded as `2·input_power/Area · exp(-2·r_i²/Rad²)`, then
updated over all N = 8001 longitudinal steps j by
`output_intensity *= 1 + gain_term/(saturation_intensity + output_intensity) − CorrectionTable[j]`
with `gain_term = saturation_intensity · small_signal_gain / 32000 · Δz`,
and the result is the sum over i of the final `output_intensity · (2π·DR) · r_i`. -/
def referenceOutputPower (input_power small_signal_gain saturation_intensity : ℝ) : ℝ :=
  ((List.range (Int.toNat ⌊(0.5 : ℝ) / DR⌋)).map (fun (i : ℕ) => (i : ℝ) * DR)).foldl
    (fun total r =>
      total +
        ((List.range 8001).foldl
          (fun oi j =>
            oi * (1 + saturation_intensity * small_signal_gain / 32000 * DZ /
              (saturation_intensity + oi) - expr1Entry j))
          (2 * input_power / AREA * Real.exp (-2 * r ^ 2 / RAD2))) * (2 * PI * DR) * r)
    0

/-- The Gaussian dataclass: stored fields only (input_power: int,
output_power: float, saturation_intensity: float).  Derived quantities are
property methods, modelled below as functions of the record. -/
structure Gaussian where
  input_power : ℤ
  output_power : ℝ
  saturation_intensity : ℝ

/-- Property `log_output_power_divided_by_input_power`:
`math.log(self.output_power / self.input_power)` (ideal real-valued form). -/
def Gaussian.log_output_power_divided_by_input_power (g : Gaussian) : ℝ :=
  Real.log (g.output_power / (g.input_power : ℝ))

/-- Property `output_power_minus_input_power`: `self.output_power - self.input_power`. -/
def Gaussian.output_power_minus_input_power (g : Gaussian) : ℝ :=
  g.output_power - (g.input_power : ℝ)

/-- Python `range(start, stop, step)` for naturals with positive step. -/
def pythonRange (start stop step : ℕ) : List ℕ :=
  (List.range ((stop - start + step - 1) / step)).map (fun k => start + step * k)

/-- `saturation_intensities = list(range(10000, 25001, 1000))`. -/
def saturation_intensities : List ℕ := pythonRange 10000 25001 1000

/-- `gaussian_calculation(input_powers, small_signal_gain)`: builds the task
list `[(p, gain, s) for p in input_powers for s in saturation_intensities]`,
dispatches one `_calculate_output_power` per task onto a process pool, and
zips results back with the tasks in submission order.  Completion order of
the pool never enters the result: the zip is with the task list. -/
def gaussian_calculation (input_powers : List ℤ) (small_signal_gain : ℝ) : List Gaussian :=
  let tasks := input_powers.flatMap (fun p => saturation_intensities.map (fun s => (p, s)))
  tasks.map (fun t =>
    ⟨t.1, _calculate_output_power (t.1 : ℝ) small_signal_gain (t.2 : ℝ), (t.2 : ℝ)⟩)

/-- Kinds of Python exception relevant to the orchestrator's except clause. -/
inductive PyExc where
  | runtimeError
  | ioError
  | valueError
  | zeroDivisionError
  | otherExc
deriving DecidableEq

/-- The exception kinds caught by `Satin.calculate`'s
`except (RuntimeError, IOError, ValueError)` clause. -/
def caughtByCalculate : PyExc → Bool
  | .runtimeError => true
  | .ioError => true
  | .valueError => true
  | _ => false

/-- The Laser dataclass. -/
structure Laser where
  output_file : String
  small_signal_gain : ℝ
  discharge_pressure : ℤ
  carbon_dioxide : String

/-- `Satin.calculate`'s result-collection loop.  `process` models `_process`
(file I/O, so fallible; it returns the output path on success).  The loop
iterates the futures in submission order; `future.result()` re-raises the
worker's exception, which the `except (RuntimeError, IOError, ValueError)`
clause turns into a logged per-laser failure, while any other exception
kind propagates out of the loop.  The value is the list of successful
output paths and the list of recorded (laser, error) failures. -/
def calculateStep (process : Laser → Except PyExc String)
    (acc : Except PyExc (List String × List (String × PyExc))) (laser : Laser) :
    Except PyExc (List String × List (String × PyExc)) :=
  match acc with
  | .error e => .error e
  | .ok (oks, errs) =>
    match process laser with
    | .ok path => .ok (oks ++ [path], errs)
    | .error e =>
      if caughtByCalculate e then .ok (oks, errs ++ [(laser.output_file, e)])
      else .error e

def Satin.calculate (process : Laser → Except PyExc String) (lasers : List Laser) :
    Except PyExc (List String × List (String × PyExc)) :=
  lasers.foldl (calculateStep process) (.ok ([], []))

/-- Python float division with its partiality: `a / b` raises
ZeroDivisionError when b = 0. -/
def pyDiv (a b : ℝ) : Except PyExc ℝ :=
  if b = 0 then .error .zeroDivisionError else .ok (a / b)

/-- Python `math.log` with its partiality: raises ValueError
("math domain error") for arguments ≤ 0. -/
def pyLog (x : ℝ) : Except PyExc ℝ :=
  if x ≤ 0 then .error .valueError else .ok (Real.log x)

/-- The `log_output_power_divided_by_input_power` property with Python's
runtime partiality made explicit: `math.log(self.output_power / self.input_power)`. -/
def Gaussian.logRatioPy (g : Gaussian) : Except PyExc ℝ :=
  (pyDiv g.output_power (g.input_power : ℝ)).bind pyLog

/-- The `output_power_minus_input_power` property with Python semantics:
subtraction is total, so it always produces a value. -/
def Gaussian.powerDeltaPy (g : Gaussian) : Except PyExc ℝ :=
  .ok (g.output_power - (g.input_power : ℝ))

/-- The row-assembly step of `_process`:
`gaussian_lines = ''.join(str(g) for g in gaussian_calculation(...))`,
where `str(g)` evaluates both derived properties.  The log property is the
only partial operation, so row assembly succeeds exactly when every record's
log accessor does; the value carried per row is the pair of derived columns. -/
def assembleRows (input_powers : List ℤ) (small_signal_gain : ℝ) :
    Except PyExc (List (ℝ × ℝ)) :=
  (gaussian_calculation input_powers small_signal_gain).mapM
    (fun g => (g.logRatioPy).map
      (fun lr => (lr, g.output_power - (g.input_power : ℝ))))

/-- `_process` for a fixed input-power list, with the file write modelled as
succeeding (an I/O failure is environmental, not caused by the laser's
parameters): the only laser-dependent failure source is the partial log
accessor inside row assembly, and on success `_process` returns the output
path. -/
def processModel (input_powers : List ℤ) (l : Laser) : Except PyExc String :=
  (assembleRows input_powers l.small_signal_gain).map (fun _ => l.output_file)

end

/- ------------------------------------------------------------------ -/
/- Helper lemmas                                                       -/
/- ------------------------------------------------------------------ -/

lemma Z1_gt_25 : 25 < Z1 := by
  rw [Z1, PI, W1, LAMBDA]
  rw [lt_div_iff₀ (by norm_num)]
  nlinarith [Real.pi_gt_three]

lemma Z1_lt_29 : Z1 < 29 := by
  rw [Z1, PI, W1, LAMBDA]
  rw [div_lt_iff₀ (by norm_num)]
  nlinarith [Real.pi_lt_d2]

lemma Z12_gt_625 : 625 < Z12 := by
  have h := Z1_gt_25
  rw [Z12]; nlinarith

lemma Z12_lt_841 : Z12 < 841 := by
  have h25 := Z1_gt_25
  have h := Z1_lt_29
  rw [Z12]; nlinarith

lemma AREA_pos : 0 < AREA := by
  rw [AREA, PI, RAD2, RAD]
  nlinarith [Real.pi_pos]

lemma EXPR_pos : 0 < EXPR := by
  rw [EXPR, PI, DR]
  nlinarith [Real.pi_pos]

lemma DZ_pos : 0 < DZ := by rw [DZ]; norm_num

/-- Every correction-table value is strictly below 1 (needed to show the
multiplicative update factor stays positive). -/
lemma expr1Entry_lt_one (j : ℕ) : expr1Entry j < 1 := by
  rw [expr1Entry]
  set t : ℝ := ((j : ℝ) - ((INCR / 2 : ℕ) : ℝ)) / 25 with ht
  have hden : 0 < Z12 + t ^ 2 := by
    have := Z12_gt_625
    nlinarith [sq_nonneg t]
  rw [div_lt_one hden, DZ]
  have h1 : 2 * t * 0.04 ≤ t ^ 2 + 0.04 ^ 2 := by nlinarith [sq_nonneg (t - 0.04)]
  have h2 : (0.04 : ℝ) ^ 2 < Z12 := by nlinarith [Z12_gt_625]
  nlinarith

lemma expr1Entry_pos_den (j : ℕ) :
    0 < Z12 + (((j : ℝ) - ((INCR / 2 : ℕ) : ℝ)) / 25) ^ 2 := by
  have := Z12_gt_625
  nlinarith [sq_nonneg (((j : ℝ) - ((INCR / 2 : ℕ) : ℝ)) / 25)]

lemma EXPR1_length : EXPR1.length = INCR := by
  simp [EXPR1]

lemma EXPR1_getD (i : ℕ) (h : i < INCR) : EXPR1.getD i 0 = expr1Entry i := by
  rw [EXPR1, List.getD_eq_getElem _ _ (by simpa using h)]
  simp

lemma radial_step_count : Int.toNat ⌊(0.5 : ℝ) / DR⌋ = 250 := by
  have h : (0.5 : ℝ) / DR = ((250 : ℕ) : ℝ) := by rw [DR]; norm_num
  rw [h, Int.floor_natCast]
  rfl

lemma zip_self_map {α β : Type} (h : α → β) :
    ∀ l : List α, l.zip (l.map h) = l.map (fun x => (x, h x))
  | [] => rfl
  | a :: t => by simp [zip_self_map h t]

/-- One positive multiplicative update stays positive. -/
lemma longitudinalUpdate_pos {S e oi : ℝ} (hS : 0 < S) (he : 0 ≤ e) (hoi : 0 < oi)
    (j : ℕ) : 0 < longitudinalUpdate S e oi j := by
  rw [longitudinalUpdate]
  apply mul_pos hoi
  have hfrac : 0 ≤ e / (S + oi) := div_nonneg he (by linarith)
  have := expr1Entry_lt_one j
  linarith

/-- The inner loop preserves strict positivity of the intensity. -/
lemma propagateSteps_pos {S e init : ℝ} (hS : 0 < S) (he : 0 ≤ e) (hinit : 0 < init) :
    ∀ n : ℕ, 0 < propagateSteps S e init n := by
  intro n
  induction n with
  | zero => simpa [propagateSteps] using hinit
  | succ m ih =>
    rw [propagateSteps, List.range_succ, List.foldl_append] at *
    exact longitudinalUpdate_pos hS he ih m

/-- The inner loop maps zero intensity to zero intensity. -/
lemma propagateSteps_zero (S e : ℝ) : ∀ n : ℕ, propagateSteps S e 0 n = 0 := by
  intro n
  induction n with
  | zero => simp [propagateSteps]
  | succ m ih =>
    rw [propagateSteps] at ih ⊢
    rw [List.range_succ, List.foldl_append, List.foldl_cons, List.foldl_nil, ih]
    simp [longitudinalUpdate]

lemma foldl_nonneg_mem {α : Type} (F : ℝ → α → ℝ) :
    ∀ (l : List α) (a : ℝ), 0 ≤ a → (∀ b x, 0 ≤ b → x ∈ l → 0 ≤ F b x) →
      0 ≤ l.foldl F a
  | [], _, ha, _ => ha
  | x :: t, a, ha, hF => by
    simp only [List.foldl_cons]
    exact foldl_nonneg_mem F t (F a x) (hF a x ha (by simp))
      (fun b y hb hy => hF b y hb (by simp [hy]))

lemma foldl_fixed {α : Type} (F : ℝ → α → ℝ) (hF : ∀ a x, F a x = a) :
    ∀ (l : List α) (a : ℝ), l.foldl F a = a
  | [], _ => rfl
  | x :: t, a => by
    simp only [List.foldl_cons, hF a x]
    exact foldl_fixed F hF t a

/-- Folding the orchestrator step over lasers that all succeed appends their
output paths and records no failure. -/
lemma foldl_calculateStep_all_ok (process : Laser → Except PyExc String)
    (f : Laser → String) :
    ∀ (ls : List Laser) (oks : List String) (errs : List (String × PyExc)),
      (∀ l ∈ ls, process l = .ok (f l)) →
      ls.foldl (calculateStep process) (.ok (oks, errs)) = .ok (oks ++ ls.map f, errs)
  | [], oks, errs, _ => by simp
  | l :: t, oks, errs, h => by
    have hl : process l = .ok (f l) := h l (by simp)
    simp only [List.foldl_cons, calculateStep, hl]
    rw [foldl_calculateStep_all_ok process f t (oks ++ [f l]) errs
      (fun x hx => h x (by simp [hx]))]
    simp

/-- Every correction-table value is at most 1/500 (AM-GM on the centred
coordinate against the Rayleigh range). -/
lemma expr1Entry_le (j : ℕ) : expr1Entry j ≤ 1 / 500 := by
  rw [expr1Entry]
  set t : ℝ := ((j : ℝ) - ((INCR / 2 : ℕ) : ℝ)) / 25 with ht
  have hden : 0 < Z12 + t ^ 2 := by
    have := Z12_gt_625
    nlinarith [sq_nonneg t]
  rw [div_le_iff₀ hden, DZ]
  nlinarith [sq_nonneg (t - 20), Z12_gt_625]

/-- The multiplicative update stays positive even for a slightly negative
gain term, as long as it is at least -S/1000: the factor is then at least
1 - 1/1000 - 1/500 > 0. -/
lemma longitudinalUpdate_pos' {S e oi : ℝ} (hS : 0 < S) (he : -(S / 1000) ≤ e)
    (hoi : 0 < oi) (j : ℕ) : 0 < longitudinalUpdate S e oi j := by
  rw [longitudinalUpdate]
  apply mul_pos hoi
  have hSoi : 0 < S + oi := by linarith
  have hfrac : -(1 / 1000 : ℝ) ≤ e / (S + oi) := by
    rw [le_div_iff₀ hSoi]
    nlinarith
  have := expr1Entry_le j
  linarith

/-- The inner loop preserves strict positivity for gain terms ≥ -S/1000. -/
lemma propagateSteps_pos' {S e init : ℝ} (hS : 0 < S) (he : -(S / 1000) ≤ e)
    (hinit : 0 < init) : ∀ n : ℕ, 0 < propagateSteps S e init n := by
  intro n
  induction n with
  | zero => simpa [propagateSteps] using hinit
  | succ m ih =>
    rw [propagateSteps, List.range_succ, List.foldl_append] at *
    exact longitudinalUpdate_pos' hS he ih m

lemma foldl_eq_add_sum {α : Type} (t : α → ℝ) :
    ∀ (l : List α) (a : ℝ), l.foldl (fun b x => b + t x) a = a + (l.map t).sum
  | [], a => by simp
  | x :: l, a => by
    simp only [List.foldl_cons, List.map_cons, List.sum_cons]
    rw [foldl_eq_add_sum t l (a + t x)]
    ring

lemma sum_map_pos {α : Type} (f : α → ℝ) (l : List α) (x : α) (hx : x ∈ l)
    (hpos : 0 < f x) (hnn : ∀ y ∈ l, 0 ≤ f y) : 0 < (l.map f).sum := by
  refine lt_of_lt_of_le hpos (List.single_le_sum ?_ _ (List.mem_map_of_mem f hx))
  intro y hy
  obtain ⟨z, hz, rfl⟩ := List.mem_map.mp hy
  exact hnn z hz

/-- For strictly positive input power, positive saturation intensity and any
gain ≥ -800 (so the gain term is ≥ -S/1000), the integrator output is
strictly positive: every radial term is non-negative and the radial sample
i = 1 contributes a strictly positive amount. -/
lemma calculate_output_power_pos (input_power small_signal_gain saturation_intensity : ℝ)
    (hP : 0 < input_power) (hS : 0 < saturation_intensity)
    (hg : -800 ≤ small_signal_gain) :
    0 < _calculate_output_power input_power small_signal_gain saturation_intensity := by
  have hA := AREA_pos
  have hE := EXPR_pos
  have he : -(saturation_intensity / 1000) ≤
      saturation_intensity * small_signal_gain / 32000 * DZ := by
    rw [DZ]; nlinarith
  simp only [_calculate_output_power]
  rw [zip_self_map, List.foldl_map, List.foldl_map]
  rw [foldl_eq_add_sum, radial_step_count, zero_add]
  apply sum_map_pos _ _ 1 (by decide)
  · simp only
    have hseed : 0 < 2 * input_power / AREA *
        Real.exp (-2 * (((1 : ℕ) : ℝ) * DR) ^ 2 / RAD2) := by positivity
    have hprop := propagateSteps_pos' hS he hseed INCR
    have hr : (0 : ℝ) < ((1 : ℕ) : ℝ) * DR := by rw [DR]; norm_num
    exact mul_pos (mul_pos hprop hE) hr
  · intro i _
    simp only
    have hseed : 0 < 2 * input_power / AREA *
        Real.exp (-2 * (((i : ℕ) : ℝ) * DR) ^ 2 / RAD2) := by positivity
    have hprop := propagateSteps_pos' hS he hseed INCR
    have hr : (0 : ℝ) ≤ ((i : ℕ) : ℝ) * DR :=
      mul_nonneg (Nat.cast_nonneg i) (by rw [DR]; norm_num)
    exact mul_nonneg (mul_nonneg hprop.le hE.le) hr

lemma gaussian_calculation_single (p : ℤ) (gain : ℝ) :
    gaussian_calculation [p] gain =
      saturation_intensities.map (fun (s : ℕ) =>
        ⟨p, _calculate_output_power (p : ℝ) gain (s : ℝ), (s : ℝ)⟩) := by
  simp [gaussian_calculation, List.map_map]

lemma mapM_ok {α β : Type} (f : α → Except PyExc β) :
    ∀ l : List α, (∀ x ∈ l, ∃ y, f x = .ok y) → ∃ ys, l.mapM f = .ok ys
  | [], _ => ⟨[], rfl⟩
  | x :: t, h => by
    obtain ⟨y, hy⟩ := h x (by simp)
    obtain ⟨ys, hys⟩ := mapM_ok f t (fun z hz => h z (by simp [hz]))
    refine ⟨y :: ys, ?_⟩
    rw [List.mapM_cons, hy]
    show (t.mapM f >>= fun as => pure (y :: as)) = Except.ok (y :: ys)
    rw [hys]
    rfl

/-- When both stored powers are strictly positive the log accessor returns a
value (no exception). -/
lemma logRatioPy_ok (g : Gaussian) (hin : (0 : ℝ) < (g.input_power : ℝ))
    (hout : 0 < g.output_power) :
    g.logRatioPy = .ok (Real.log (g.output_power / (g.input_power : ℝ))) := by
  rw [Gaussian.logRatioPy, pyDiv, if_neg hin.ne']
  show pyLog (g.output_power / (g.input_power : ℝ)) = _
  rw [pyLog, if_neg (not_le.mpr (div_pos hout hin))]

/-- Row assembly for input power 10 succeeds for every gain ≥ -800: all
output powers are strictly positive, so no log accessor raises. -/
lemma assembleRows_ok_ten (gain : ℝ) (hg : -800 ≤ gain) :
    ∃ ys, assembleRows [10] gain = .ok ys := by
  rw [assembleRows]
  apply mapM_ok
  intro gauss hmem
  rw [gaussian_calculation_single] at hmem
  obtain ⟨s, hs, rfl⟩ := List.mem_map.mp hmem
  have hs10000 : 10000 ≤ s := by
    have hall : ∀ x ∈ saturation_intensities, 10000 ≤ x := by decide
    exact hall s hs
  have hout : 0 < _calculate_output_power ((10 : ℤ) : ℝ) gain (s : ℝ) :=
    calculate_output_power_pos _ _ _ (by norm_num)
      (by exact_mod_cast Nat.lt_of_lt_of_le (by norm_num) hs10000) hg
  rw [logRatioPy_ok _ (by norm_num) hout]
  exact ⟨_, rfl⟩

/-- For any laser with gain ≥ -800 and input power 10, the modelled
`_process` raises nothing and returns its output path. -/
lemma processModel_ok_ten (l : Laser) (hg : -800 ≤ l.small_signal_gain) :
    processModel [10] l = .ok l.output_file := by
  rw [processModel]
  obtain ⟨ys, hys⟩ := assembleRows_ok_ten l.small_signal_gain hg
  rw [hys]
  rfl

/- ------------------------------------------------------------------ -/
/- Claim theorems                                                      -/
/- ------------------------------------------------------------------ -/

/-- C1: for every input triple, `_calculate_output_power` returns exactly the
value of the reference algorithm of spec §4.2 (radius discretized as i·DR for
i = 0 .. int(0.5/DR)-1, Gaussian seed, 8001 sequential multiplicative
correction steps, radial accumulation with element 2π·DR·r). -/
theorem integrator_matches_reference (input_power small_signal_gain saturation_intensity : ℝ) :
    _calculate_output_power input_power small_signal_gain saturation_intensity =
      referenceOutputPower input_power small_signal_gain saturation_intensity := by
  simp only [_calculate_output_power, referenceOutputPower]
  rw [zip_self_map, List.foldl_map, List.foldl_map, List.foldl_map]
  simp only [propagateSteps, longitudinalUpdate, EXPR, INCR]

/-- C2: for every valid input triple (all three arguments positive), the
output power returned by `_calculate_output_power` is non-negative.  In this
real-number model every computed value is a real number, hence finite; the
claim's finiteness conjunct is thus inherent in the model. -/
theorem integrator_output_nonneg (input_power small_signal_gain saturation_intensity : ℝ)
    (hP : 0 < input_power) (hg : 0 < small_signal_gain) (hS : 0 < saturation_intensity) :
    0 ≤ _calculate_output_power input_power small_signal_gain saturation_intensity := by
  have hA := AREA_pos
  have hDZ := DZ_pos
  have hE := EXPR_pos
  have he : 0 ≤ saturation_intensity * small_signal_gain / 32000 * DZ := by positivity
  simp only [_calculate_output_power]
  rw [zip_self_map, List.foldl_map]
  apply foldl_nonneg_mem _ _ _ le_rfl
  intro b x hb hx
  simp only [List.mem_map, List.mem_range] at hx
  obtain ⟨i, _, rfl⟩ := hx
  have hseed : 0 < 2 * input_power / AREA * Real.exp (-2 * ((i : ℝ) * DR) ^ 2 / RAD2) := by
    positivity
  have hprop := propagateSteps_pos hS he hseed INCR
  have hr : (0 : ℝ) ≤ (i : ℝ) * DR :=
    mul_nonneg (Nat.cast_nonneg i) (by rw [DR]; norm_num)
  have hterm := mul_nonneg (mul_nonneg hprop.le hE.le) hr
  simp only
  linarith

/-- C2 witness at the spec's golden operating point (10, 28.4, 10000). -/
theorem integrator_output_nonneg_eval :
    (0 : ℝ) < 10 ∧ (0 : ℝ) < 28.4 ∧ (0 : ℝ) < 10000 ∧
      0 ≤ _calculate_output_power 10 28.4 10000 :=
  ⟨by norm_num, by norm_num, by norm_num,
    integrator_output_nonneg 10 28.4 10000 (by norm_num) (by norm_num) (by norm_num)⟩

/-- C5: for positive inputs, the running `output_intensity` of the
integrator (modelled by `propagateSteps`, the inner loop of
`_calculate_output_power` run for `n` steps on the Gaussian seed of radial
sample i) stays strictly positive at every radial sample and every
longitudinal step, so the division denominator
`saturation_intensity + output_intensity` never reaches zero or negative:
the §4.2 division singularity is unreachable for physically valid inputs. -/
theorem integrator_intermediate_pos (input_power small_signal_gain saturation_intensity : ℝ)
    (hP : 0 < input_power) (hg : 0 < small_signal_gain) (hS : 0 < saturation_intensity)
    (i n : ℕ) (hi : i < Int.toNat ⌊(0.5 : ℝ) / DR⌋) (hn : n ≤ INCR) :
    0 < propagateSteps saturation_intensity
        (saturation_intensity * small_signal_gain / 32000 * DZ)
        (2 * input_power / AREA * Real.exp (-2 * ((i : ℝ) * DR) ^ 2 / RAD2)) n ∧
    0 < saturation_intensity + propagateSteps saturation_intensity
        (saturation_intensity * small_signal_gain / 32000 * DZ)
        (2 * input_power / AREA * Real.exp (-2 * ((i : ℝ) * DR) ^ 2 / RAD2)) n := by
  have hA := AREA_pos
  have hDZ := DZ_pos
  have he : 0 ≤ saturation_intensity * small_signal_gain / 32000 * DZ := by positivity
  have hseed : 0 < 2 * input_power / AREA * Real.exp (-2 * ((i : ℝ) * DR) ^ 2 / RAD2) := by
    positivity
  have h := propagateSteps_pos hS he hseed n
  exact ⟨h, by linarith⟩

/-- C5 witness: radial sample 3, longitudinal step 100, inputs (10, 28.4, 10000). -/
theorem integrator_intermediate_pos_eval :
    (0 : ℝ) < 10 ∧ (3 : ℕ) < Int.toNat ⌊(0.5 : ℝ) / DR⌋ ∧ (100 : ℕ) ≤ INCR ∧
    0 < propagateSteps 10000 (10000 * 28.4 / 32000 * DZ)
        (2 * 10 / AREA * Real.exp (-2 * (((3 : ℕ) : ℝ) * DR) ^ 2 / RAD2)) 100 :=
  ⟨by norm_num, by rw [radial_step_count]; norm_num, by norm_num [INCR],
    (integrator_intermediate_pos 10 28.4 10000 (by norm_num) (by norm_num) (by norm_num)
      3 100 (by rw [radial_step_count]; norm_num) (by norm_num [INCR])).1⟩

/-- C9: with input_power = 0 every radial seed intensity is zero, zero is a
fixed point of the multiplicative longitudinal update, and the accumulated
total is exactly zero, for every gain and every positive saturation
intensity. -/
theorem integrator_zero_input_power (small_signal_gain saturation_intensity : ℝ)
    (hS : 0 < saturation_intensity) :
    _calculate_output_power 0 small_signal_gain saturation_intensity = 0 := by
  simp only [_calculate_output_power]
  rw [zip_self_map, List.foldl_map, List.foldl_map]
  apply foldl_fixed
  intro a i
  simp only
  have hseed : 2 * (0 : ℝ) / AREA * Real.exp (-2 * ((i : ℝ) * DR) ^ 2 / RAD2) = 0 := by
    simp
  rw [hseed, propagateSteps_zero]
  ring

/-- C9 witness at gain 28.4 and saturation intensity 10000. -/
theorem integrator_zero_input_power_eval :
    (0 : ℝ) < 10000 ∧ _calculate_output_power 0 28.4 10000 = 0 :=
  ⟨by norm_num, integrator_zero_input_power 28.4 10000 (by norm_num)⟩

/-- C6: the correction table has length exactly 8001, and entry 0 is the
exact negative of entry 8000 (exact equality in the real model, hence in
particular within any floating-point tolerance). -/
theorem expr1_length_and_antisymmetry :
    EXPR1.length = 8001 ∧ EXPR1.getD 0 0 = - EXPR1.getD 8000 0 := by
  refine ⟨by rw [EXPR1_length]; rfl, ?_⟩
  rw [EXPR1_getD 0 (by norm_num [INCR]), EXPR1_getD 8000 (by norm_num [INCR])]
  rw [expr1Entry, expr1Entry]
  norm_num [INCR]
  exact neg_div _ _

/-- C3 counterexample: entry 0 of the table does not equal the claim's
formula read with real division N/2 = 8001/2 = 4000.5 (the code floors:
`INCR // 2 = 4000`); equality at i = 0 would force Z1² = 25603.2, while
Z1² < 841. -/
theorem expr1_halfN_formula_counterexample :
    EXPR1.getD 0 0 ≠
      2 * ((((0 : ℕ) : ℝ) - (8001 : ℝ) / 2) / 25) * DZ /
        (Z12 + ((((0 : ℕ) : ℝ) - (8001 : ℝ) / 2) / 25) ^ 2) := by
  rw [EXPR1_getD 0 (by norm_num [INCR]), expr1Entry]
  norm_num [INCR, DZ]
  intro h
  have hB : (0 : ℝ) < Z12 + 25600 := by nlinarith [Z12_gt_625]
  have hD : (0 : ℝ) < Z12 + 64016001 / 2500 := by nlinarith [Z12_gt_625]
  rw [div_eq_div_iff hB.ne' hD.ne'] at h
  nlinarith [Z12_gt_625, Z12_lt_841]

/-- C3 amended: entry i of the table equals `2·t_i·Δz / (Z1² + t_i²)` with
the centred coordinate `t_i = (i - ⌊N/2⌋)/25 = (i - 4000)/25` (floor
division, as computed by `INCR // 2`), for every i < N = 8001. -/
theorem expr1_entry_floor_formula (i : ℕ) (h : i < INCR) :
    EXPR1.getD i 0 =
      2 * (((i : ℝ) - 4000) / 25) * DZ / (Z12 + (((i : ℝ) - 4000) / 25) ^ 2) := by
  rw [EXPR1_getD i h, expr1Entry]
  norm_num [INCR]

/-- C3 witness: the amended formula evaluated at index 0. -/
theorem expr1_entry_floor_formula_eval :
    0 < INCR ∧
    EXPR1.getD 0 0 =
      2 * ((((0 : ℕ) : ℝ) - 4000) / 25) * DZ /
        (Z12 + ((((0 : ℕ) : ℝ) - 4000) / 25) ^ 2) :=
  ⟨by norm_num [INCR], expr1_entry_floor_formula 0 (by norm_num [INCR])⟩

/-- C4: for a single input power, `gaussian_calculation` returns exactly 16
records, one per saturation intensity of the fixed grid 10000..25000 step
1000, sorted ascending by saturation intensity (results are collected by
zipping with the task list in submission order, so concurrent completion
order never enters); for a list of input powers, the output is grouped by
input power in the given order, then by saturation intensity ascending. -/
theorem gaussian_calculation_grid_order (p : ℤ) (g : ℝ) (ips : List ℤ) :
    (gaussian_calculation [p] g).length = 16 ∧
    (gaussian_calculation [p] g).map (fun r => r.saturation_intensity) =
      saturation_intensities.map (fun (s : ℕ) => (s : ℝ)) ∧
    saturation_intensities = [10000, 11000, 12000, 13000, 14000, 15000, 16000,
      17000, 18000, 19000, 20000, 21000, 22000, 23000, 24000, 25000] ∧
    List.Sorted (· < ·)
      ((gaussian_calculation [p] g).map (fun r => r.saturation_intensity)) ∧
    gaussian_calculation ips g = ips.flatMap (fun q => gaussian_calculation [q] g) := by
  have hsat : saturation_intensities = [10000, 11000, 12000, 13000, 14000, 15000,
      16000, 17000, 18000, 19000, 20000, 21000, 22000, 23000, 24000, 25000] := by rfl
  have hmap : (gaussian_calculation [p] g).map (fun r => r.saturation_intensity) =
      saturation_intensities.map (fun (s : ℕ) => (s : ℝ)) := by
    simp [gaussian_calculation, List.map_map, Function.comp]
  refine ⟨?_, hmap, hsat, ?_, ?_⟩
  · simp [gaussian_calculation, hsat]
  · rw [hmap]
    apply List.Pairwise.map (fun (s : ℕ) => (s : ℝ))
      (fun a b hab => (Nat.cast_lt (α := ℝ)).mpr hab)
    rw [hsat]
    decide
  · simp [gaussian_calculation, List.map_flatMap]

/-- C7: the derived columns of a Gaussian record equal exactly the values
recomputed from its stored fields (`log_ratio = ln(output_power/input_power)`
and `power_delta = output_power - input_power`); they are functions of the
record computed on access, not stored, so any two records agreeing on the
stored input/output powers agree on the derived columns — the derived values
can never drift from the stored ones. -/
theorem gaussian_derived_columns (g : Gaussian) :
    g.log_output_power_divided_by_input_power =
      Real.log (g.output_power / (g.input_power : ℝ)) ∧
    g.output_power_minus_input_power = g.output_power - (g.input_power : ℝ) ∧
    (∀ g₂ : Gaussian, g₂.output_power = g.output_power →
      g₂.input_power = g.input_power →
      g₂.log_output_power_divided_by_input_power =
        g.log_output_power_divided_by_input_power ∧
      g₂.output_power_minus_input_power = g.output_power_minus_input_power) := by
  refine ⟨rfl, rfl, ?_⟩
  intro g₂ ho hi
  constructor
  · rw [Gaussian.log_output_power_divided_by_input_power,
      Gaussian.log_output_power_divided_by_input_power, ho, hi]
  · rw [Gaussian.output_power_minus_input_power,
      Gaussian.output_power_minus_input_power, ho, hi]

/-- C7 witness: two records with equal stored powers but different
saturation intensities have equal derived columns. -/
theorem gaussian_derived_columns_eval :
    (Gaussian.mk 2 4 20000).log_output_power_divided_by_input_power =
      (Gaussian.mk 2 4 10000).log_output_power_divided_by_input_power ∧
    (Gaussian.mk 2 4 20000).output_power_minus_input_power =
      (Gaussian.mk 2 4 10000).output_power_minus_input_power :=
  (gaussian_derived_columns (Gaussian.mk 2 4 10000)).2.2 (Gaussian.mk 2 4 20000) rfl rfl

/-- C10: the log derived column is partial in Python: with positive
input_power and output_power ≤ 0 the accessor raises ValueError (math domain
error), and with input_power = 0 it raises ZeroDivisionError, so report-row
assembly fails rather than emitting a row; the power-delta column is total. -/
theorem gaussian_log_accessor_raises (g : Gaussian) :
    (0 < g.input_power → g.output_power ≤ 0 →
      g.logRatioPy = .error .valueError) ∧
    (g.input_power = 0 → g.logRatioPy = .error .zeroDivisionError) ∧
    g.powerDeltaPy = .ok (g.output_power - (g.input_power : ℝ)) := by
  refine ⟨?_, ?_, rfl⟩
  · intro hip hop
    have hcast : (0 : ℝ) < (g.input_power : ℝ) := by exact_mod_cast hip
    rw [Gaussian.logRatioPy, pyDiv, if_neg hcast.ne']
    show pyLog (g.output_power / (g.input_power : ℝ)) = _
    rw [pyLog, if_pos]
    rw [div_nonpos_iff]
    exact Or.inr ⟨hop, hcast.le⟩
  · intro h0
    rw [Gaussian.logRatioPy, pyDiv, if_pos (by rw [h0]; norm_num)]
    rfl

/-- C10 witness: (input 5, output 0) raises ValueError; (input 0, output 3)
raises ZeroDivisionError. -/
theorem gaussian_log_accessor_raises_eval :
    (0 : ℤ) < 5 ∧ (0 : ℝ) ≤ 0 ∧
    (Gaussian.mk 5 0 10000).logRatioPy = .error .valueError ∧
    (Gaussian.mk 0 3 10000).logRatioPy = .error .zeroDivisionError :=
  ⟨by norm_num, le_refl 0,
    (gaussian_log_accessor_raises (Gaussian.mk 5 0 10000)).1 (by norm_num) (le_refl 0),
    (gaussian_log_accessor_raises (Gaussian.mk 0 3 10000)).2.1 rfl⟩

/-- C8 counterexample: the claim's "in particular" instance — 3 laser
configs of which one has an invalid (negative) gain give 2 reports and
exactly 1 failure — is false of the code, and so is the unrestricted "a
failure raised ... does not abort" reading.  First conjunct: forcing a
negative gain (-3) through `_process` raises nothing, because the
integrator output stays strictly positive for every gain ≥ -800
(`calculate_output_power_pos`), so the log column is defined on every row
and the orchestrator produces 3 reports and records 0 failures.  (In the
real program the scenario is even further from the claim: a negative gain
cannot match the config regex `(\d{2}\.\d)` at satin.py:105, so that laser
is dropped before processing — 2 reports and 0 failures.)  Second
conjunct: an exception of a kind outside the `except (RuntimeError,
IOError, ValueError)` clause — here ZeroDivisionError, which the program
can actually raise — propagates out of the collection loop instead of
being recorded as the failing laser's failure. -/
theorem calculate_invalid_gain_counterexample :
    Satin.calculate (processModel [10])
      [Laser.mk "mdaa.out" 28.4 100 "MD", Laser.mk "mdbb.out" (-3) 95 "MD",
        Laser.mk "picc.out" 15.5 90 "PI"] =
      .ok (["mdaa.out", "mdbb.out", "picc.out"], []) ∧
    Satin.calculate
      (fun l => if l.output_file = "mdbb.out" then Except.error PyExc.zeroDivisionError
                else Except.ok l.output_file)
      [Laser.mk "mdaa.out" 28.4 100 "MD", Laser.mk "mdbb.out" (-3) 95 "MD",
        Laser.mk "picc.out" 15.5 90 "PI"] =
      .error PyExc.zeroDivisionError := by
  constructor
  · have hall : ∀ l ∈ [Laser.mk "mdaa.out" 28.4 100 "MD",
        Laser.mk "mdbb.out" (-3) 95 "MD", Laser.mk "picc.out" 15.5 90 "PI"],
        processModel [10] l = .ok l.output_file := by
      intro l hl
      simp only [List.mem_cons, List.not_mem_nil, or_false] at hl
      rcases hl with rfl | rfl | rfl
      · exact processModel_ok_ten _ (by norm_num)
      · exact processModel_ok_ten _ (by norm_num)
      · exact processModel_ok_ten _ (by norm_num)
    rw [Satin.calculate,
      foldl_calculateStep_all_ok (processModel [10]) (fun l => l.output_file) _ [] [] hall]
    rfl
  · rfl

/-- C8 (amended): a failure of one of the caught kinds (RuntimeError,
IOError, ValueError) raised while processing one laser does not abort the
others: for any batch split as pre ++ [bad] ++ post where every other
laser's processing succeeds, `Satin.calculate` still produces the outputs
of all other lasers, in order, and records exactly one failure, attributed
to the failing laser. -/
theorem calculate_isolates_failure (process : Laser → Except PyExc String)
    (f : Laser → String) (pre post : List Laser) (bad : Laser) (e : PyExc)
    (hpre : ∀ l ∈ pre, process l = .ok (f l))
    (hpost : ∀ l ∈ post, process l = .ok (f l))
    (hbad : process bad = .error e) (hc : caughtByCalculate e = true) :
    Satin.calculate process (pre ++ bad :: post) =
      .ok ((pre ++ post).map f, [(bad.output_file, e)]) := by
  rw [Satin.calculate, List.foldl_append]
  rw [foldl_calculateStep_all_ok process f pre [] [] hpre]
  rw [List.foldl_cons]
  have hstep : calculateStep process (.ok ([] ++ pre.map f, [])) bad =
      .ok (pre.map f, [(bad.output_file, e)]) := by
    simp [calculateStep, hbad, hc]
  rw [hstep, foldl_calculateStep_all_ok process f post (pre.map f) _ hpost]
  simp

/-- C8 witness: three lasers, the middle one failing with a caught IOError
(e.g. an unwritable output file); the two others are reported and exactly
one failure is recorded. -/
theorem calculate_isolates_failure_eval :
    Satin.calculate
      (fun l => if l.output_file = "mdbb.out" then Except.error PyExc.ioError
                else Except.ok l.output_file)
      [Laser.mk "mdaa.out" 28.4 100 "MD", Laser.mk "mdbb.out" 12.5 100 "MD",
        Laser.mk "picc.out" 15.5 90 "PI"] =
      .ok (["mdaa.out", "picc.out"], [("mdbb.out", PyExc.ioError)]) :=
  calculate_isolates_failure
    (fun l => if l.output_file = "mdbb.out" then Except.error PyExc.ioError
              else Except.ok l.output_file)
    (fun l => l.output_file)
    [Laser.mk "mdaa.out" 28.4 100 "MD"] [Laser.mk "picc.out" 15.5 90 "PI"]
    (Laser.mk "mdbb.out" 12.5 100 "MD") PyExc.ioError
    (by intro l hl; simp at hl; subst hl; rfl)
    (by intro l hl; simp at hl; subst hl; rfl)
    rfl rfl
